import Mathlib

/-!
Verification of the stock-dashboard backend's signal pipeline against its
natural-language specification.  The Python sources (`scan.py`,
`indicator_utils.py`, `polygon_api.py`, `main.py`) are shallowly embedded:
prices are rationals, pandas frames are lists of records, `None`/`NaN` are
`Option`, and Python exceptions are `Except`.
-/

namespace StockDash

/-! ### Python-style numerics

Python's builtin `round` uses banker's rounding (round half to even).
`pyRound n q` models `round(q, n)` on exact decimal inputs.
-/

/-- Round half to even, as Python's builtin `round` does on the integer step. -/
def halfEvenRound (q : ℚ) : ℤ :=
  if q - ⌊q⌋ < 1/2 then ⌊q⌋
  else if 1/2 < q - ⌊q⌋ then ⌊q⌋ + 1
  else if ⌊q⌋ % 2 = 0 then ⌊q⌋ else ⌊q⌋ + 1

/-- `round(q, n)` in Python: banker's rounding at the n-th decimal place. -/
def pyRound (n : ℕ) (q : ℚ) : ℚ :=
  (halfEvenRound (q * 10 ^ n) : ℚ) / 10 ^ n

theorem halfEvenRound_ge_floor (q : ℚ) : ⌊q⌋ ≤ halfEvenRound q := by
  unfold halfEvenRound
  split_ifs <;> omega

theorem halfEvenRound_le_floor_add_one (q : ℚ) : halfEvenRound q ≤ ⌊q⌋ + 1 := by
  unfold halfEvenRound
  split_ifs <;> omega

theorem halfEvenRound_nonneg {q : ℚ} (h : 0 ≤ q) : 0 ≤ halfEvenRound q := by
  have := halfEvenRound_ge_floor q
  have : (0 : ℤ) ≤ ⌊q⌋ := Int.floor_nonneg.mpr h
  omega

theorem halfEvenRound_mono {a b : ℚ} (h : a ≤ b) :
    halfEvenRound a ≤ halfEvenRound b := by
  rcases eq_or_lt_of_le h with rfl | hlt
  · exact le_refl _
  rcases lt_or_le ⌊a⌋ ⌊b⌋ with hf | hf
  · calc halfEvenRound a ≤ ⌊a⌋ + 1 := halfEvenRound_le_floor_add_one a
      _ ≤ ⌊b⌋ := by omega
      _ ≤ halfEvenRound b := halfEvenRound_ge_floor b
  · have hfe : ⌊a⌋ = ⌊b⌋ := le_antisymm (Int.floor_mono h) hf
    have hr : a - ⌊a⌋ < b - ⌊b⌋ := by rw [hfe]; exact sub_lt_sub_right hlt _
    unfold halfEvenRound
    rw [hfe] at *
    split_ifs <;> first | omega | linarith

theorem pyRound_nonneg {q : ℚ} (n : ℕ) (h : 0 ≤ q) : 0 ≤ pyRound n q := by
  unfold pyRound
  have h1 : (0 : ℤ) ≤ halfEvenRound (q * 10 ^ n) :=
    halfEvenRound_nonneg (by positivity)
  have h2 : (0 : ℚ) ≤ (halfEvenRound (q * 10 ^ n) : ℚ) := by exact_mod_cast h1
  positivity

theorem pyRound_mono {a b : ℚ} (n : ℕ) (h : a ≤ b) : pyRound n a ≤ pyRound n b := by
  unfold pyRound
  have h1 : halfEvenRound (a * 10 ^ n) ≤ halfEvenRound (b * 10 ^ n) :=
    halfEvenRound_mono (by
      have : (0 : ℚ) < 10 ^ n := by positivity
      exact mul_le_mul_of_nonneg_right h (le_of_lt this))
  have h2 : (halfEvenRound (a * 10 ^ n) : ℚ) ≤ (halfEvenRound (b * 10 ^ n) : ℚ) := by
    exact_mod_cast h1
  have h3 : (0 : ℚ) < 10 ^ n := by positivity
  exact (div_le_div_iff_of_pos_right h3).mpr h2

/-! ### `stats_summary` win rate (`main.py`)

`win_rate = round(met / max(1, (met + not_met)) * 100, 2) if (met + not_met) else None`
-/

/-- The `win_rate_pct` computation of the `/stats/summary` endpoint, from
`main.py`: `met` and `not_met` are the counts of `MET` and `NOT_MET`
outcome rows. -/
def win_rate (met not_met : ℕ) : Option ℚ :=
  if met + not_met ≠ 0 then
    some (pyRound 2 ((met : ℚ) / ((max 1 (met + not_met) : ℕ) : ℚ) * 100))
  else none

/-- Claim C9: the stats summary never divides by zero computing the win
rate: `win_rate_pct` is `None` exactly when the `MET` and `NOT_MET` counts
are both zero, and otherwise equals `MET / (MET + NOT_MET)` as a
percentage rounded (Python `round`) to 2 decimal places. -/
theorem win_rate_spec (met not_met : ℕ) :
    (win_rate met not_met = none ↔ met = 0 ∧ not_met = 0) ∧
    (met + not_met ≠ 0 →
      win_rate met not_met =
        some (pyRound 2 ((met : ℚ) * 100 / ((met : ℚ) + (not_met : ℚ))))) := by
  constructor
  · constructor
    · intro h
      by_contra hc
      have hne : met + not_met ≠ 0 := by omega
      simp [win_rate, hne] at h
    · rintro ⟨rfl, rfl⟩
      simp [win_rate]
  · intro hne
    have hmax : max 1 (met + not_met) = met + not_met := by omega
    unfold win_rate
    rw [if_pos hne, hmax]
    congr 2
    push_cast
    rw [div_mul_eq_mul_div]

/-- Witness for C9 at concrete counts: 3 MET, 1 NOT_MET gives 75%. -/
theorem win_rate_spec_witness :
    win_rate 3 1 = some (pyRound 2 ((3 : ℚ) * 100 / ((3 : ℚ) + (1 : ℚ)))) :=
  (win_rate_spec 3 1).2 (by omega)

/-! ### `_risk_reward` (`main.py`)

Serialization helper computing `(rr, reward_pct, risk_pct)` from entry,
target, stop and direction.  `None` is `Option.none`; the `try/except` is
unreachable for the pure arithmetic below.
-/

/-- Python `s.lower()` (ASCII, as used for the direction string). -/
def pyLower (s : String) : String := String.mk (s.data.map Char.toLower)

/-- The risk amount `_risk_reward` computes before its positivity guard:
`max(sl - entry, 0)` for shorts, `max(entry - sl, 0)` for longs. -/
def risk_of (entry sl : ℚ) (direction : String) : ℚ :=
  let d := pyLower (if direction = "" then "long" else direction)
  if d = "short" then max (sl - entry) 0 else max (entry - sl) 0

/-- The reward amount `_risk_reward` computes: `max(entry - tp, 0)` for
shorts, `max(tp - entry, 0)` for longs. -/
def reward_of (entry tp : ℚ) (direction : String) : ℚ :=
  let d := pyLower (if direction = "" then "long" else direction)
  if d = "short" then max (entry - tp) 0 else max (tp - entry) 0

/-- `_risk_reward` from `main.py`: returns `(rr, reward_pct, risk_pct)`.
`rr = reward/risk` rounded to 3 decimals (cleaned to `None` if negative),
percentages rounded to 2; everything `None` when an input is missing or
`entry <= 0`; `rr`/`risk_pct` are `None` when the risk is not positive. -/
def risk_reward (entry tp sl : Option ℚ) (direction : String) :
    Option ℚ × Option ℚ × Option ℚ :=
  match entry, tp, sl with
  | some e, some t, some s =>
    if e ≤ 0 then (none, none, none)
    else
      let reward := reward_of e t direction
      let risk := risk_of e s direction
      let reward_pct : ℚ := reward / e * 100
      let risk_pct : Option ℚ := if 0 < risk then some (risk / e * 100) else none
      let rr : Option ℚ := if 0 < risk then some (reward / risk) else none
      let rr := match rr with
        | some v => if v < 0 then none else some v
        | none => none
      (rr.map (pyRound 3), some (pyRound 2 reward_pct), risk_pct.map (pyRound 2))
  | _, _, _ => (none, none, none)

theorem pyLower_long : pyLower "long" = "long" := by decide

theorem risk_of_long (e s : ℚ) : risk_of e s "long" = max (e - s) 0 := by
  unfold risk_of
  rw [if_neg (by decide : ¬ ("long" : String) = ""), pyLower_long,
    if_neg (by decide : ¬ ("long" : String) = "short")]

theorem reward_of_long (e t : ℚ) : reward_of e t "long" = max (t - e) 0 := by
  unfold reward_of
  rw [if_neg (by decide : ¬ ("long" : String) = ""), pyLower_long,
    if_neg (by decide : ¬ ("long" : String) = "short")]

/-- Counterexample to claim C10 as stated: with entry 100, target 110,
stop 100 and direction "long" the computed risk is `0` (not strictly
positive), yet `reward_pct` is `10.0` rather than `None` — only `rr` and
`risk_pct` are nulled. -/
theorem risk_reward_not_all_null :
    risk_reward (some 100) (some 110) (some 100) "long" = (none, some 10, none) ∧
    risk_of 100 100 "long" = 0 := by
  have hrisk : risk_of 100 100 "long" = 0 := by rw [risk_of_long]; norm_num
  constructor
  · have hreward : reward_of 100 110 "long" = 10 := by rw [reward_of_long]; norm_num
    have hpct : pyRound 2 (10 : ℚ) = 10 := by
      norm_num [pyRound, halfEvenRound]
    simp only [risk_reward, hrisk, hreward]
    norm_num [hpct]
  · exact hrisk

/-- Claim C10, amended: `rr` is `None` or a non-negative number; all three
fields are `None` when entry, target or stop is missing or `entry ≤ 0`;
and when the computed risk is not strictly positive, `rr` and `risk_pct`
(but not `reward_pct`) are `None`. -/
theorem risk_reward_safety (entry tp sl : Option ℚ) (direction : String) :
    (∀ q, (risk_reward entry tp sl direction).1 = some q → 0 ≤ q) ∧
    ((entry = none ∨ tp = none ∨ sl = none) →
      risk_reward entry tp sl direction = (none, none, none)) ∧
    (∀ e, entry = some e → e ≤ 0 →
      risk_reward entry tp sl direction = (none, none, none)) ∧
    (∀ e s, entry = some e → sl = some s → risk_of e s direction ≤ 0 →
      (risk_reward entry tp sl direction).1 = none ∧
      (risk_reward entry tp sl direction).2.2 = none) := by
  refine ⟨?_, ?_, ?_, ?_⟩
  · intro q hq
    match hentry : entry, htp : tp, hsl : sl with
    | none, _, _ => simp [risk_reward] at hq
    | some e, none, _ => simp [risk_reward] at hq
    | some e, some t, none => simp [risk_reward] at hq
    | some e, some t, some s =>
      by_cases he : e ≤ 0
      · simp [risk_reward, he] at hq
      · simp only [risk_reward, he, if_false] at hq
        by_cases hr : 0 < risk_of e s direction
        · simp only [hr, if_true] at hq
          by_cases hneg : reward_of e t direction / risk_of e s direction < 0
          · simp [hneg] at hq
          · simp only [hneg, if_false, Option.map_some] at hq
            have := hq.symm
            cases hq
            exact pyRound_nonneg 3 (le_of_not_lt hneg)
        · simp [hr] at hq
  · rintro (rfl | rfl | rfl) <;>
      [skip; cases entry; cases entry] <;>
      first
        | rfl
        | (rename_i x; cases tp <;> rfl)
  · rintro e rfl he
    match tp, sl with
    | none, _ => rfl
    | some t, none => rfl
    | some t, some s => simp [risk_reward, he]
  · rintro e s rfl rfl hrisk
    match tp with
    | none => exact ⟨rfl, rfl⟩
    | some t =>
      by_cases he : e ≤ 0
      · simp [risk_reward, he]
      · have hr : ¬ 0 < risk_of e s direction := not_lt.mpr hrisk
        simp [risk_reward, he, hr]

/-- Witness for C10 (amended) at concrete inputs: missing stop gives all
`None`; entry 100 / target 90 / stop 100, direction "long", has risk 0 so
`rr` and `risk_pct` are `None`. -/
theorem risk_reward_safety_witness :
    risk_reward (some 100) (some 90) none "long" = (none, none, none) ∧
    ((risk_reward (some 100) (some 90) (some 100) "long").1 = none ∧
      (risk_reward (some 100) (some 90) (some 100) "long").2.2 = none) := by
  constructor
  · exact (risk_reward_safety (some 100) (some 90) none "long").2.1 (Or.inr (Or.inr rfl))
  · exact (risk_reward_safety (some 100) (some 90) (some 100) "long").2.2.2 100 100 rfl rfl
      (by rw [risk_of_long]; norm_num)

/-! ### Composite score (`polygon_api.py`, `get_diversified_universe`)

Per-row scoring step: `score = 0.55 * pct_change_abs.fillna(0).clip(lower=0)
+ 0.35 * rel_vol.fillna(1.0).clip(lower=0, upper=10) / 10.0
+ 0.10 * gap_abs.fillna(0).clip(lower=0)`.  `Option.none` models `NaN`.
-/

/-- pandas `Series.fillna` on a single cell. -/
def fillna (d : ℚ) : Option ℚ → ℚ
  | some v => v
  | none => d

/-- pandas `clip(lower=lo)` on a single cell. -/
def clip_lower (lo v : ℚ) : ℚ := max lo v

/-- pandas `clip(lower=lo, upper=hi)` on a single cell. -/
def clip_between (lo hi v : ℚ) : ℚ := min hi (max lo v)

/-- One universe row's metric cells, as they stand when
`get_diversified_universe` computes `uni["score"]` (each may be `NaN`). -/
structure MetricRow where
  pct_change_abs : Option ℚ
  rel_vol : Option ℚ
  gap_abs : Option ℚ

/-- The composite score `get_diversified_universe` assigns to a row
(weights `w_move, w_relvol, w_gap = 0.55, 0.35, 0.10`). -/
def composite_score (r : MetricRow) : ℚ :=
  0.55 * clip_lower 0 (fillna 0 r.pct_change_abs) +
    0.35 * clip_between 0 10 (fillna 1.0 r.rel_vol) / 10.0 +
    0.10 * clip_lower 0 (fillna 0 r.gap_abs)

/-- The spec's formula: 0.55 × intraday move + 0.35 × (relative volume
clipped to [0,10] / 10) + 0.10 × gap, each component non-negative, with
missing move/gap defaulted to 0 and missing relative volume to 1. -/
def composite_score_formula (r : MetricRow) : ℚ :=
  let move := max 0 (r.pct_change_abs.getD 0)
  let relvol := min 10 (max 0 (r.rel_vol.getD 1))
  let gap := max 0 (r.gap_abs.getD 0)
  0.55 * move + 0.35 * (relvol / 10) + 0.10 * gap

/-- Claim C8: the composite score computed by `get_diversified_universe`
equals 0.55 × intraday move + 0.35 × (relative volume clipped to [0,10] /
10) + 0.10 × gap, each component taken non-negative with missing values
defaulted; moreover every component term is indeed non-negative. -/
theorem composite_score_spec (r : MetricRow) :
    composite_score r = composite_score_formula r ∧
    0 ≤ clip_lower 0 (fillna 0 r.pct_change_abs) ∧
    0 ≤ clip_between 0 10 (fillna 1.0 r.rel_vol) ∧
    0 ≤ clip_lower 0 (fillna 0 r.gap_abs) := by
  refine ⟨?_, le_max_left _ _, ?_, le_max_left _ _⟩
  · unfold composite_score composite_score_formula clip_lower clip_between fillna
    cases r.pct_change_abs <;> cases r.rel_vol <;> cases r.gap_abs <;>
      simp [Option.getD] <;> (first | ring1 | norm_num [min_def, max_def])
  · unfold clip_between
    have h1 : (0 : ℚ) ≤ max 0 (fillna 1.0 r.rel_vol) := le_max_left _ _
    exact le_min (by norm_num) h1

/-! ### Candle patterns and support/resistance (`indicator_utils.py`)

OHLCV bars carry `Open/High/Low/Close` (volume is irrelevant here).
`detect_candles` inspects the last two bars; `calculate_support_resistance`
takes the rolling-14 (min 1) extremes of `Low`/`High` at the last bar and
rounds each to 2 decimals.
-/

/-- One OHLCV bar. -/
structure Bar where
  Open : ℚ
  High : ℚ
  Low : ℚ
  Close : ℚ
deriving DecidableEq

/-- `detect_candles` from `indicator_utils.py`: bullish patterns on the
latest candle; requires at least two bars, else returns `[]`. When the
latest body is zero it returns early with only the engulfing result. -/
def detect_candles (df : List Bar) : List String :=
  match df.reverse with
  | latest :: prev :: _ =>
    let patterns :=
      if prev.Close < prev.Open ∧ latest.Close > latest.Open ∧
          latest.Close > prev.Open ∧ latest.Open < prev.Close then
        ["Bullish Engulfing"]
      else []
    let body := |latest.Close - latest.Open|
    if body = 0 then patterns
    else
      let lower_shadow := min latest.Open latest.Close - latest.Low
      let upper_shadow := latest.High - max latest.Open latest.Close
      if lower_shadow > 2 * body ∧ upper_shadow < body then
        patterns ++ ["Hammer"]
      else patterns
  | _ => []

theorem detect_candles_short (df : List Bar) (h : df.length < 2) :
    detect_candles df = [] := by
  match df with
  | [] => rfl
  | [b] => rfl
  | a :: b :: rest => simp at h; omega

theorem detect_candles_append (pre : List Bar) (prev latest : Bar) :
    detect_candles (pre ++ [prev, latest]) =
      (let patterns :=
        if prev.Close < prev.Open ∧ latest.Close > latest.Open ∧
            latest.Close > prev.Open ∧ latest.Open < prev.Close then
          ["Bullish Engulfing"]
        else []
      let body := |latest.Close - latest.Open|
      if body = 0 then patterns
      else
        if min latest.Open latest.Close - latest.Low > 2 * body ∧
            latest.High - max latest.Open latest.Close < body then
          patterns ++ ["Hammer"]
        else patterns) := by
  have h : (pre ++ [prev, latest]).reverse = latest :: prev :: pre.reverse := by
    simp
  unfold detect_candles
  rw [h]

/-- Claim C6: `detect_candles` returns `[]` for any series with fewer than
2 bars; with at least 2 bars (and a well-formed latest bar, whose high and
low bound its body) it emits "Bullish Engulfing" exactly when the previous
bar is bearish and its body is fully engulfed by the current bullish body,
and "Hammer" exactly when the lower shadow exceeds twice the body and the
upper shadow is smaller than the body. -/
theorem detect_candles_spec :
    (∀ df : List Bar, df.length < 2 → detect_candles df = []) ∧
    (∀ (pre : List Bar) (prev latest : Bar),
      latest.Low ≤ min latest.Open latest.Close →
      max latest.Open latest.Close ≤ latest.High →
      (("Bullish Engulfing" ∈ detect_candles (pre ++ [prev, latest])) ↔
        (prev.Close < prev.Open ∧ latest.Close > latest.Open ∧
          latest.Close > prev.Open ∧ latest.Open < prev.Close)) ∧
      (("Hammer" ∈ detect_candles (pre ++ [prev, latest])) ↔
        (min latest.Open latest.Close - latest.Low > 2 * |latest.Close - latest.Open| ∧
          latest.High - max latest.Open latest.Close < |latest.Close - latest.Open|))) := by
  refine ⟨detect_candles_short, ?_⟩
  intro pre prev latest _hlow hhigh
  rw [detect_candles_append]
  have hham0 : |latest.Close - latest.Open| = 0 →
      ¬ (min latest.Open latest.Close - latest.Low > 2 * |latest.Close - latest.Open| ∧
        latest.High - max latest.Open latest.Close < |latest.Close - latest.Open|) := by
    intro hb
    rw [hb]
    rintro ⟨-, h2⟩
    have h3 : (0 : ℚ) ≤ latest.High - max latest.Open latest.Close := by linarith
    linarith
  by_cases heng : prev.Close < prev.Open ∧ latest.Close > latest.Open ∧
      latest.Close > prev.Open ∧ latest.Open < prev.Close <;>
    by_cases hbody : |latest.Close - latest.Open| = 0 <;>
    (first | rw [if_pos heng] | rw [if_neg heng]) <;>
    (first | rw [if_pos hbody] | rw [if_neg hbody])
  · exact ⟨iff_of_true (by simp) heng, iff_of_false (by simp) (hham0 hbody)⟩
  · by_cases hham : min latest.Open latest.Close - latest.Low >
        2 * |latest.Close - latest.Open| ∧
        latest.High - max latest.Open latest.Close < |latest.Close - latest.Open|
    · rw [if_pos hham]
      exact ⟨iff_of_true (by simp) heng, iff_of_true (by simp) hham⟩
    · rw [if_neg hham]
      exact ⟨iff_of_true (by simp) heng, iff_of_false (by simp) hham⟩
  · exact ⟨iff_of_false (by simp) heng, iff_of_false (by simp) (hham0 hbody)⟩
  · by_cases hham : min latest.Open latest.Close - latest.Low >
        2 * |latest.Close - latest.Open| ∧
        latest.High - max latest.Open latest.Close < |latest.Close - latest.Open|
    · rw [if_pos hham]
      exact ⟨iff_of_false (by simp) heng, iff_of_true (by simp) hham⟩
    · rw [if_neg hham]
      exact ⟨iff_of_false (by simp) heng, iff_of_false (by simp) hham⟩

/-- Witness for C6: a one-bar series yields no pattern, and a concrete
bearish-then-engulfing pair yields "Bullish Engulfing". -/
theorem detect_candles_spec_witness :
    detect_candles [(⟨1, 1, 1, 1⟩ : Bar)] = [] ∧
    "Bullish Engulfing" ∈ detect_candles ([] ++ [(⟨10, 11, 9, 9⟩ : Bar), (⟨8, 12, 8, 11⟩ : Bar)]) :=
  ⟨detect_candles_spec.1 [⟨1, 1, 1, 1⟩] (by norm_num),
    ((detect_candles_spec.2 [] ⟨10, 11, 9, 9⟩ ⟨8, 12, 8, 11⟩ (by norm_num)
      (by norm_num)).1).mpr (by norm_num)⟩

/-- `calculate_support_resistance` from `indicator_utils.py`: the rolling
14-bar (`min_periods=1`) minimum of lows and maximum of highs, both taken
at the latest bar and rounded to 2 decimals; `none` models the
`IndexError` that `.iloc[-1]` raises on an empty frame. -/
def calculate_support_resistance (df : List Bar) : Option (ℚ × ℚ) :=
  match df.reverse with
  | [] => none
  | latest :: rest =>
    let support := ((rest.take 13).map (·.Low)).foldl min latest.Low
    let resistance := ((rest.take 13).map (·.High)).foldl max latest.High
    some (pyRound 2 support, pyRound 2 resistance)

theorem foldl_min_le_init (l : List ℚ) (a : ℚ) : l.foldl min a ≤ a := by
  induction l generalizing a with
  | nil => exact le_refl a
  | cons x xs ih =>
    calc (x :: xs).foldl min a = xs.foldl min (min a x) := rfl
      _ ≤ min a x := ih (min a x)
      _ ≤ a := min_le_left _ _

theorem init_le_foldl_max (l : List ℚ) (a : ℚ) : a ≤ l.foldl max a := by
  induction l generalizing a with
  | nil => exact le_refl a
  | cons x xs ih =>
    calc a ≤ max a x := le_max_left _ _
      _ ≤ xs.foldl max (max a x) := ih (max a x)
      _ = (x :: xs).foldl max a := rfl

/-- Counterexample to claim C7 as stated: on the single bar with low 1.999
and high 3.141, `calculate_support_resistance` returns `(2.0, 3.14)` — the
resistance is NOT equal to the maximum high observed in the lookback
window (3.141), because both values are rounded to 2 decimal places. -/
theorem calculate_support_resistance_not_max_high :
    calculate_support_resistance [⟨1, 3.141, 1.999, 2⟩] = some (2, 3.14) ∧
    ((3.14 : ℚ) ≠ 3.141) := by
  constructor
  · unfold calculate_support_resistance
    simp only [List.reverse_cons, List.reverse_nil, List.nil_append, List.take_nil,
      List.map_nil, List.foldl_nil]
    norm_num [pyRound, halfEvenRound]
  · norm_num

/-- Claim C7, amended: for every non-empty series the result is the
rolling 14-bar (`min_periods=1`) minimum of lows and maximum of highs at
the latest bar, each rounded to 2 decimal places; when every bar's low is
at most its high (in particular on any well-formed monotone series),
resistance ≥ support. -/
theorem calculate_support_resistance_spec (pre : List Bar) (latest : Bar) :
    calculate_support_resistance (pre ++ [latest]) =
      some (pyRound 2 ((((pre ++ [latest]).reverse.take 14).map (·.Low)).foldl min latest.Low),
        pyRound 2 ((((pre ++ [latest]).reverse.take 14).map (·.High)).foldl max latest.High)) ∧
    ((∀ b ∈ pre ++ [latest], b.Low ≤ b.High) →
      ∀ s r, calculate_support_resistance (pre ++ [latest]) = some (s, r) → s ≤ r) := by
  have hrev : (pre ++ [latest]).reverse = latest :: pre.reverse := by simp
  have heq : calculate_support_resistance (pre ++ [latest]) =
      some (pyRound 2 (((pre.reverse.take 13).map (·.Low)).foldl min latest.Low),
        pyRound 2 (((pre.reverse.take 13).map (·.High)).foldl max latest.High)) := by
    unfold calculate_support_resistance
    rw [hrev]
  constructor
  · rw [heq, hrev]
    simp [List.foldl_cons, min_self, max_self]
  · intro hwf s r hsr
    rw [heq] at hsr
    simp only [Option.some.injEq, Prod.mk.injEq] at hsr
    obtain ⟨hs, hr⟩ := hsr
    have h1 : (((pre.reverse.take 13).map (·.Low)).foldl min latest.Low) ≤ latest.Low :=
      foldl_min_le_init _ _
    have h2 : latest.High ≤ (((pre.reverse.take 13).map (·.High)).foldl max latest.High) :=
      init_le_foldl_max _ _
    have h3 : latest.Low ≤ latest.High := hwf latest (by simp)
    rw [← hs, ← hr]
    exact pyRound_mono 2 (by linarith)

/-- Witness for C7 (amended) at a concrete one-bar series: the result is
`(2, 5)` and support ≤ resistance. -/
theorem calculate_support_resistance_spec_witness :
    (2 : ℚ) ≤ 5 :=
  (calculate_support_resistance_spec [] ⟨1, 5, 2, 3⟩).2
    (by intro b hb; simp at hb; subst hb; norm_num) 2 5
    (by
      unfold calculate_support_resistance
      simp only [List.nil_append, List.reverse_cons, List.reverse_nil, List.take_nil,
        List.map_nil, List.foldl_nil]
      norm_num [pyRound, halfEvenRound])

/-! ### Strategy tags (`indicator_utils.py`, `detect_strategies`)

`detect_strategies` receives a single pandas `Series` — the latest row —
whose index is the column names.  `row.shift(1)` therefore shifts values
*within the row*: `row.shift(1)[k]` is the value stored one position
before column `k` (`NaN` at position 0), not the previous bar.  A row is
an ordered list of `(column, cell)` pairs, `none` modelling `NaN`; the
uncaught `KeyError` of `row.shift(1)["ema20"]` is `Except.error`.
-/

/-- A pandas `Series` row: ordered (column, cell) pairs, `none` = `NaN`. -/
abbrev SeriesRow : Type := List (String × Option ℚ)

/-- Position of column `k` in the row's index. -/
def colIdx (row : SeriesRow) (k : String) : Option ℕ :=
  List.findIdx? (fun p => p.1 == k) row

/-- Whether column `k` exists in the row's index. -/
def hasCol (row : SeriesRow) (k : String) : Bool := (colIdx row k).isSome

/-- The cell stored at column `k` (`none` if the column is absent or NaN). -/
def cellVal (row : SeriesRow) (k : String) : Option ℚ :=
  match List.find? (fun p => p.1 == k) row with
  | some p => p.2
  | none => none

/-- `row.get(k, default)`: the cell if `k` is present, else the default. -/
def rowGet (row : SeriesRow) (k : String) (d : Option ℚ) : Option ℚ :=
  if hasCol row k then cellVal row k else d

/-- `row.shift(1)[k]` for a present column `k`: the cell one position
earlier in the index, `NaN` when `k` sits at position 0. -/
def shiftVal (row : SeriesRow) (k : String) : Option ℚ :=
  match colIdx row k with
  | some (i + 1) =>
    match row[i]? with
    | some p => p.2
    | none => none
  | _ => none

/-- `NaN`-aware `<` (any comparison with `NaN` is `False` in pandas). -/
def oLt : Option ℚ → Option ℚ → Bool
  | some a, some b => decide (a < b)
  | _, _ => false

/-- `NaN`-aware `<=`. -/
def oLe : Option ℚ → Option ℚ → Bool
  | some a, some b => decide (a ≤ b)
  | _, _ => false

/-- `NaN`-aware `>`. -/
def oGt : Option ℚ → Option ℚ → Bool
  | some a, some b => decide (b < a)
  | _, _ => false

/-- `NaN`-aware `>=`. -/
def oGe : Option ℚ → Option ℚ → Bool
  | some a, some b => decide (b ≤ a)
  | _, _ => false

/-- `dict.fromkeys`-style de-duplication: keeps the first occurrence. -/
def dedupSeen (seen : List String) : List String → List String
  | [] => []
  | x :: xs => if x ∈ seen then dedupSeen seen xs else x :: dedupSeen (x :: seen) xs

/-- `list(dict.fromkeys(tags))`: de-dupe preserving first-seen order. -/
def dedupFirstSeen (l : List String) : List String := dedupSeen [] l

theorem mem_dedupSeen (a : String) (seen l : List String) :
    a ∈ dedupSeen seen l ↔ a ∈ l ∧ a ∉ seen := by
  induction l generalizing seen with
  | nil => simp [dedupSeen]
  | cons x xs ih =>
    by_cases hx : x ∈ seen
    · rw [dedupSeen, if_pos hx, ih]
      constructor
      · rintro ⟨h1, h2⟩
        exact ⟨List.mem_cons_of_mem _ h1, h2⟩
      · rintro ⟨h1, h2⟩
        rcases List.mem_cons.mp h1 with rfl | h1
        · exact absurd hx h2
        · exact ⟨h1, h2⟩
    · rw [dedupSeen, if_neg hx]
      rcases eq_or_ne a x with rfl | hax
      · simp [hx]
      · simp only [List.mem_cons, hax, false_or]
        rw [ih]
        simp only [List.mem_cons, hax, false_or]

theorem mem_dedupFirstSeen (a : String) (l : List String) :
    a ∈ dedupFirstSeen l ↔ a ∈ l := by
  rw [dedupFirstSeen, mem_dedupSeen]
  simp

/-- `detect_strategies` from `indicator_utils.py`, acting on the latest
row only.  The `try` block assigns all three `prev_*` values (all `NA` if
any of the three columns is missing); within the `else` branch,
`row.shift(1)["ema20"]` is indexed without a guard, so a missing `ema20`
column raises (`Except.error`) — reachable only when `ema5 > ema20`
already evaluated truthily, per Python's short-circuit `and`. -/
def detect_strategies (row : SeriesRow) : Except Unit (List String) := do
  let tryOk := hasCol row "ema5" && hasCol row "macd" && hasCol row "macd_signal"
  let prev_ema5 := if tryOk then shiftVal row "ema5" else none
  let prev_macd := if tryOk then shiftVal row "macd" else none
  let prev_macd_sig := if tryOk then shiftVal row "macd_signal" else none
  let crossover ←
    if prev_ema5.isNone then pure []
    else do
      let t1 := if oLt (rowGet row "rsi" (some 50)) (some 35) then ["RSI Oversold"] else []
      let t2 ←
        if oGt (rowGet row "ema5" (some 0)) (rowGet row "ema20" (some 0)) then
          if hasCol row "ema20" then
            pure (if oLe prev_ema5 (shiftVal row "ema20") then ["EMA Bullish Crossover"] else [])
          else throw ()
        else pure []
      let t3 := if oGt (rowGet row "macd" (some 0)) (rowGet row "macd_signal" (some 0))
          && oLe prev_macd prev_macd_sig then ["MACD Bullish Crossover"] else []
      pure (t1 ++ t2 ++ t3)
  let close := rowGet row "Close" none
  let bb_low := rowGet row "bb_low" none
  let bb_high := rowGet row "bb_high" none
  let rsi := rowGet row "rsi" none
  let t4 := if close.isSome && bb_low.isSome && oLe close bb_low then
      "BB Lower Touch" ::
        (if rsi.isSome && oLt rsi (some 35) then ["BB Lower + RSI Oversold"] else [])
    else []
  let t5 := if close.isSome && bb_high.isSome && oGe close bb_high then
      "BB Upper Touch" ::
        (if rsi.isSome && oGt rsi (some 65) then ["BB Upper + RSI Overbought"] else [])
    else []
  pure (dedupFirstSeen (crossover ++ t4 ++ t5))

/-- The latest row as `calculate_indicators` produces it: columns
`Open, High, Low, Close, Volume, rsi, ema5, ema20, macd, macd_signal,
bb_mid, bb_high, bb_low`, all populated.  Under this layout
`row.shift(1)["ema5"] = rsi`, `row.shift(1)["ema20"] = ema5` and
`row.shift(1)["macd"] = ema20`, `row.shift(1)["macd_signal"] = macd`. -/
def stdRow (o hi lo c v rsi e5 e20 m ms bm bh bl : ℚ) : SeriesRow :=
  [("Open", some o), ("High", some hi), ("Low", some lo), ("Close", some c),
   ("Volume", some v), ("rsi", some rsi), ("ema5", some e5), ("ema20", some e20),
   ("macd", some m), ("macd_signal", some ms), ("bb_mid", some bm),
   ("bb_high", some bh), ("bb_low", some bl)]

/-- What `detect_strategies` actually emits on a fully-populated standard
row: the "crossover" guards compare *same-row shifted* values
(`prev_ema5 = rsi`, `shift["ema20"] = ema5`, `prev_macd = ema20`,
`prev_macd_sig = macd`), and the only overbought tag is the compound
Bollinger one. -/
def stdTags (c rsi e5 e20 m ms bh bl : ℚ) : List String :=
  dedupFirstSeen (
    ((if rsi < 35 then ["RSI Oversold"] else []) ++
      (if e20 < e5 ∧ rsi ≤ e5 then ["EMA Bullish Crossover"] else []) ++
      (if ms < m ∧ e20 ≤ m then ["MACD Bullish Crossover"] else [])) ++
    (if c ≤ bl then
      "BB Lower Touch" :: (if rsi < 35 then ["BB Lower + RSI Oversold"] else [])
    else []) ++
    (if bh ≤ c then
      "BB Upper Touch" :: (if 65 < rsi then ["BB Upper + RSI Overbought"] else [])
    else []))

theorem detect_strategies_stdRow (o hi lo c v rsi e5 e20 m ms bm bh bl : ℚ) :
    detect_strategies (stdRow o hi lo c v rsi e5 e20 m ms bm bh bl) =
      Except.ok (stdTags c rsi e5 e20 m ms bh bl) := by
  simp only [detect_strategies, stdTags, stdRow, hasCol, colIdx, cellVal, rowGet, shiftVal,
    oLt, oLe, oGt, oGe]
  simp [List.findIdx?, List.find?, decide_eq_true_eq, Bool.and_eq_true]
  by_cases h1 : e20 < e5 <;> by_cases h2 : rsi ≤ e5 <;> simp [h1, h2] <;> rfl

theorem stdTags_mem (c rsi e5 e20 m ms bh bl : ℚ) :
    ("RSI Oversold" ∈ stdTags c rsi e5 e20 m ms bh bl ↔ rsi < 35) ∧
    ("EMA Bullish Crossover" ∈ stdTags c rsi e5 e20 m ms bh bl ↔ e20 < e5 ∧ rsi ≤ e5) ∧
    ("MACD Bullish Crossover" ∈ stdTags c rsi e5 e20 m ms bh bl ↔ ms < m ∧ e20 ≤ m) ∧
    ("BB Lower Touch" ∈ stdTags c rsi e5 e20 m ms bh bl ↔ c ≤ bl) ∧
    ("BB Lower + RSI Oversold" ∈ stdTags c rsi e5 e20 m ms bh bl ↔ c ≤ bl ∧ rsi < 35) ∧
    ("BB Upper Touch" ∈ stdTags c rsi e5 e20 m ms bh bl ↔ bh ≤ c) ∧
    ("BB Upper + RSI Overbought" ∈ stdTags c rsi e5 e20 m ms bh bl ↔ bh ≤ c ∧ 65 < rsi) := by
  simp only [stdTags, mem_dedupFirstSeen]
  split_ifs <;> simp_all

/-- Counterexample to claim C4 as stated.  First: a standard latest row
with `rsi = 70 > 65` (and price inside the bands) produces NO tag at all —
there is no standalone RSI-overbought tag.  Second: a single latest row
(so no true previous-bar comparison exists) with `ema5 = 10 > ema20 = 5`
and `rsi = 7 ≤ ema5` DOES emit "EMA Bullish Crossover": the guard compares
same-row neighbours, it does not skip when the previous bar is absent. -/
theorem detect_strategies_counterexample :
    detect_strategies (stdRow 50 51 49 50 1000 70 10 20 1 2 70 100 40) = Except.ok [] ∧
    (70 : ℚ) > 65 ∧
    detect_strategies (stdRow 50 51 49 50 1000 7 10 5 1 2 70 100 40) =
      Except.ok ["RSI Oversold", "EMA Bullish Crossover"] :=
  ⟨rfl, by norm_num, rfl⟩

/-- Claim C4, amended: on a fully-populated standard latest row,
`detect_strategies` emits "RSI Oversold" exactly when `rsi < 35`; it emits
no standalone RSI-overbought tag — `rsi > 65` only contributes to the
compound "BB Upper + RSI Overbought" tag together with `close ≥ bb_high`;
and the EMA/MACD bullish-crossover tags are guarded by same-row shifted
values (an approximation, `row.shift(1)` on the Series), not by a true
previous-bar comparison: "EMA Bullish Crossover" fires iff `ema5 > ema20`
and `rsi ≤ ema5`, "MACD Bullish Crossover" iff `macd > macd_signal` and
`ema20 ≤ macd`. -/
theorem detect_strategies_spec_amended (o hi lo c v rsi e5 e20 m ms bm bh bl : ℚ) :
    detect_strategies (stdRow o hi lo c v rsi e5 e20 m ms bm bh bl) =
      Except.ok (stdTags c rsi e5 e20 m ms bh bl) ∧
    ("RSI Oversold" ∈ stdTags c rsi e5 e20 m ms bh bl ↔ rsi < 35) ∧
    ("EMA Bullish Crossover" ∈ stdTags c rsi e5 e20 m ms bh bl ↔ e20 < e5 ∧ rsi ≤ e5) ∧
    ("MACD Bullish Crossover" ∈ stdTags c rsi e5 e20 m ms bh bl ↔ ms < m ∧ e20 ≤ m) ∧
    ("BB Lower Touch" ∈ stdTags c rsi e5 e20 m ms bh bl ↔ c ≤ bl) ∧
    ("BB Lower + RSI Oversold" ∈ stdTags c rsi e5 e20 m ms bh bl ↔ c ≤ bl ∧ rsi < 35) ∧
    ("BB Upper Touch" ∈ stdTags c rsi e5 e20 m ms bh bl ↔ bh ≤ c) ∧
    ("BB Upper + RSI Overbought" ∈ stdTags c rsi e5 e20 m ms bh bl ↔ bh ≤ c ∧ 65 < rsi) :=
  ⟨detect_strategies_stdRow o hi lo c v rsi e5 e20 m ms bm bh bl,
    stdTags_mem c rsi e5 e20 m ms bh bl⟩

/-! ### Top-pick promotion (`scan.py`, `run_scan` lines 231–277)

The cycle's freshly added Signals are matched against the Ranker's picks:
`by_ticker = {s.ticker: s for s in added_signals}` (later signals win),
then per pick the Signal object is mutated and an Outcome appended; the
whole session commits only after the loop.  `_to_float` raising
`ValueError` on an unparseable price string is `Except.error` and aborts
the loop before any commit.
-/

/-- A Signal as mutated by the promotion loop (fields irrelevant to the
claims — price, indicators, horizon — omitted). -/
structure Sig where
  ticker : String
  is_top_pick : Bool
  gpt_rank : Option ℤ
  target_price : Option ℚ
  stop_loss : Option ℚ
  stars : Option ℤ
  direction : Option String
deriving DecidableEq

/-- An Outcome row created by the promotion loop. -/
structure OutcomeRec where
  signal_ticker : String
  status : String
deriving DecidableEq

/-- One pick returned by the Ranker; raw price fields are strings (or
absent), as parsed from the model's JSON. -/
structure Pick where
  ticker : Option String
  rank : Option ℤ
  stars : Option ℤ
  target_price : Option String
  stop_loss : Option String
  direction : Option String

/-- `str(x).replace("$", "").replace(",", "").strip()`. -/
def clean_money (s : String) : List Char :=
  let noPunct := s.data.filter (fun ch => !(ch == '$' || ch == ','))
  ((noPunct.dropWhile (·.isWhitespace)).reverse.dropWhile (·.isWhitespace)).reverse

/-- Digit run to a natural number. -/
def digitsToNat (cs : List Char) : ℕ :=
  cs.foldl (fun a ch => 10 * a + (ch.toNat - 48)) 0

/-- Python `float` on the cleaned characters, for the plain decimal forms
the Ranker produces (`"95"`, `"4.50"`, `"-1.2"`); anything else — e.g.
`"N/A"` — fails like `float` raising `ValueError`. -/
def parseDecimal (cs : List Char) : Option ℚ :=
  let intPart := cs.takeWhile Char.isDigit
  let rest := cs.dropWhile Char.isDigit
  match rest with
  | [] => if intPart.isEmpty then none else some ((digitsToNat intPart : ℕ) : ℚ)
  | '.' :: frac =>
    if frac.all Char.isDigit ∧ (intPart ≠ [] ∨ frac ≠ []) then
      some (((digitsToNat intPart : ℕ) : ℚ) +
        ((digitsToNat frac : ℕ) : ℚ) / (10 : ℚ) ^ frac.length)
    else none
  | _ => none

/-- Signed decimal parse. -/
def parseFloat (cs : List Char) : Option ℚ :=
  match cs with
  | '-' :: rest => (parseDecimal rest).map Neg.neg
  | '+' :: rest => parseDecimal rest
  | _ => parseDecimal cs

/-- `_to_float` from `run_scan`: `None` passes through; a present string
is cleaned and parsed, and a parse failure is the *uncaught* `ValueError`
of `float(...)` (`Except.error`). -/
def to_float : Option String → Except Unit (Option ℚ)
  | none => Except.ok none
  | some s =>
    match parseFloat (clean_money s) with
    | some q => Except.ok (some q)
    | none => Except.error ()

/-- Mutate the first signal (scanning from a direction) with the ticker. -/
def updateFirst (f : Sig → Sig) (t : String) : List Sig → List Sig
  | [] => []
  | s :: ss => if s.ticker == t then f s :: ss else s :: updateFirst f t ss

/-- Mutate the signal `by_ticker[t]` refers to: the dict is built in list
order, so the *last* signal with ticker `t` is the one mutated. -/
def updateLast (f : Sig → Sig) (t : String) (sigs : List Sig) : List Sig :=
  (updateFirst f t sigs.reverse).reverse

/-- The body of the promotion loop for one pick at 1-based index `i`. -/
def promote_pick (sigs : List Sig) (outs : List OutcomeRec) (i : ℤ) (pick : Pick) :
    Except Unit (List Sig × List OutcomeRec) := do
  match pick.ticker with
  | none => pure (sigs, outs)
  | some t =>
    if sigs.any (fun s => s.ticker == t) then do
      let sigs := updateLast
        (fun s => { s with is_top_pick := true, gpt_rank := some (pick.rank.getD i) }) t sigs
      let tp ← to_float pick.target_price
      let sl ← to_float pick.stop_loss
      if tp.isNone || sl.isNone then pure (sigs, outs)
      else
        let starsVal : ℤ := match pick.stars with
          | none => 3
          | some v => if v = 0 then 3 else v
        let sigs := updateLast (fun s =>
          { s with target_price := tp, stop_loss := sl,
                   stars := some (max 1 (min 5 starsVal)),
                   direction := some (pick.direction.getD "long") }) t sigs
        pure (sigs, outs ++ [⟨t, "PENDING"⟩])
    else pure (sigs, outs)

/-- The promotion loop over all picks (`enumerate(top5, start=1)`). -/
def promote_loop (sigs : List Sig) (outs : List OutcomeRec) (i : ℤ) :
    List Pick → Except Unit (List Sig × List OutcomeRec)
  | [] => Except.ok (sigs, outs)
  | p :: ps => do
    let st ← promote_pick sigs outs i p
    promote_loop st.1 st.2 (i + 1) ps

/-- The whole promotion phase of `run_scan`: starts from the cycle's added
signals and no outcomes; `Except.ok` is the state `db.commit()` persists,
`Except.error` means the uncaught exception aborted the cycle before the
commit. -/
def promote (added_signals : List Sig) (top5 : List Pick) :
    Except Unit (List Sig × List OutcomeRec) :=
  promote_loop added_signals [] 1 top5

/-- Claim C1 is violated by the code (code bug): when the Ranker's pick
for a matched signal carries no `target_price` (`_to_float(None) = None`),
the loop has *already* set `is_top_pick = True` and `gpt_rank` before the
`tp is None or sl is None: continue` check, and then creates no Outcome —
yet the cycle completes and `db.commit()` persists this state.  The
committed state below has a Signal with `is_top_pick = true`,
`target_price = none`, `stop_loss = none` and an empty Outcome table,
contradicting `is_top_pick ⇔ target and stop set ∧ exactly one Outcome`. -/
theorem promote_top_pick_without_outcome :
    promote [⟨"AAPL", false, none, none, none, none, none⟩]
        [⟨some "AAPL", some 1, some 4, none, some "95", some "long"⟩] =
      Except.ok ([⟨"AAPL", true, some 1, none, none, none, none⟩], []) := rfl

/-- Claim C2 is violated by the code (code bug): a pick whose target price
fails to parse as a number (`"N/A"`) makes `float(...)` raise an uncaught
`ValueError`, aborting the promotion loop — and the whole `run_scan`
cycle — before `db.commit()`.  So not only is the bad candidate not
promoted: every other returned pick loses its promotion too (first
conjunct: the cycle with the bad pick errors out; second conjunct: the
same second pick alone would have been promoted with its Outcome). -/
theorem promote_unparseable_target_aborts_cycle :
    promote [⟨"AAPL", false, none, none, none, none, none⟩,
             ⟨"MSFT", false, none, none, none, none, none⟩]
        [⟨some "AAPL", some 1, some 5, some "N/A", some "95", some "long"⟩,
         ⟨some "MSFT", some 2, some 4, some "310", some "290", some "long"⟩] =
      Except.error () ∧
    promote [⟨"MSFT", false, none, none, none, none, none⟩]
        [⟨some "MSFT", some 2, some 4, some "310", some "290", some "long"⟩] =
      Except.ok ([⟨"MSFT", true, some 2, some ((310 : ℕ) : ℚ), some ((290 : ℕ) : ℚ),
        some 4, some "long"⟩], [⟨"MSFT", "PENDING"⟩]) :=
  ⟨rfl, rfl⟩

/-! ### Batch selection (`scan.py`, `pick_next_batch`)

The diversified universe is a frame of rows with ticker, sector, score
and `pct_change_abs`; `already` is the set of tickers scanned today.
pandas `groupby("sector")` iterates groups in ascending key order;
`sort_values(["score", "pct_change_abs"], ascending=[False, False])` is a
sort by descending score then descending pct; the remainder fill sorts by
descending score only.
-/

/-- One row of the diversified universe frame. -/
structure URow where
  ticker : String
  sector : String
  score : ℚ
  pct_change_abs : ℚ
deriving DecidableEq

/-- Descending (score, pct_change_abs) order. -/
def scorePctOrder (a b : URow) : Prop :=
  b.score < a.score ∨ (b.score = a.score ∧ b.pct_change_abs ≤ a.pct_change_abs)

instance : DecidableRel scorePctOrder := fun a b => by
  unfold scorePctOrder; infer_instance

/-- Descending score order. -/
def scoreOrder (a b : URow) : Prop := b.score ≤ a.score

instance : DecidableRel scoreOrder := fun a b => by
  unfold scoreOrder; infer_instance

/-- Ascending string order on sector names (pandas `groupby` key order). -/
def strOrder (a b : String) : Prop := a.data < b.data

instance : DecidableRel strOrder := fun a b => by
  unfold strOrder; infer_instance

/-- The distinct sector keys of `fresh`, in `groupby` iteration order. -/
def sectorKeys (fresh : List URow) : List String :=
  (dedupFirstSeen (fresh.map (·.sector))).insertionSort strOrder

/-- One `groupby` group's contribution in the loop of `pick_next_batch`:
`take = min(min_per_sector, len(g))` rows of the group sorted by
descending (score, pct), appended only when `take > 0`. -/
def sector_take (fresh : List URow) (mps : ℕ) (sct : String) : Option (List URow) :=
  let g := fresh.filter (fun r => r.sector == sct)
  let tk := min mps g.length
  if 0 < tk then some ((g.insertionSort scorePctOrder).take tk) else none

/-- `pick_next_batch` from `scan.py`: drop tickers already scanned today,
take up to `min_per_sector` per sector (skipping empty takes), then — if
still under `batch_size` — fill with remaining rows by score. -/
def pick_next_batch (uni : List URow) (already : List String)
    (batch_size min_per_sector : ℕ) : List URow :=
  let fresh := uni.filter (fun r => !already.contains r.ticker)
  let picks := (sectorKeys fresh).filterMap (sector_take fresh min_per_sector)
  let selected := picks.flatten
  if selected.length < batch_size then
    let leftovers := (fresh.filter (fun r =>
      !(selected.map (·.ticker)).contains r.ticker)).insertionSort scoreOrder
    let want := batch_size - selected.length
    if 0 < want then selected ++ leftovers.take want else selected
  else selected

/-- Spec phase 1: up to `min_per_sector` top-scored rows from every
sector. -/
def sector_phase (fresh : List URow) (min_per_sector : ℕ) : List URow :=
  ((sectorKeys fresh).map (fun sct =>
    ((fresh.filter (fun r => r.sector == sct)).insertionSort scorePctOrder).take
      min_per_sector)).flatten

/-- Spec phase 2: fill the remaining capacity up to `batch_size` by global
score rank, from rows whose ticker was not selected in phase 1. -/
def global_fill (fresh selected : List URow) (batch_size : ℕ) : List URow :=
  ((fresh.filter (fun r =>
    !(selected.map (·.ticker)).contains r.ticker)).insertionSort scoreOrder).take
    (batch_size - selected.length)

/-- The batch as the spec words it: diversification phase, then global
fill. -/
def select_batch_spec (uni : List URow) (already : List String)
    (batch_size min_per_sector : ℕ) : List URow :=
  let fresh := uni.filter (fun r => !already.contains r.ticker)
  sector_phase fresh min_per_sector ++
    global_fill fresh (sector_phase fresh min_per_sector) batch_size

theorem sector_take_pos (fresh : List URow) (mps : ℕ) (sct : String)
    (h : 0 < min mps (fresh.filter (fun r => r.sector == sct)).length) :
    sector_take fresh mps sct =
      some (((fresh.filter (fun r => r.sector == sct)).insertionSort
        scorePctOrder).take (min mps (fresh.filter (fun r => r.sector == sct)).length)) := by
  unfold sector_take
  rw [if_pos h]

theorem sector_take_nonpos (fresh : List URow) (mps : ℕ) (sct : String)
    (h : ¬ 0 < min mps (fresh.filter (fun r => r.sector == sct)).length) :
    sector_take fresh mps sct = none := by
  unfold sector_take
  rw [if_neg h]

theorem flatten_filterMap_take (l : List String) (fresh : List URow) (mps : ℕ) :
    (l.filterMap (sector_take fresh mps)).flatten =
    (l.map (fun sct =>
      ((fresh.filter (fun r => r.sector == sct)).insertionSort scorePctOrder).take
        mps)).flatten := by
  induction l with
  | nil => rfl
  | cons x xs ih =>
    rw [List.filterMap_cons, List.map_cons]
    by_cases h : 0 < min mps (fresh.filter (fun r => r.sector == x)).length
    · rw [sector_take_pos fresh mps x h]
      rw [List.flatten_cons, List.flatten_cons, ih]
      congr 1
      have hlen : ((fresh.filter (fun r => r.sector == x)).insertionSort
          scorePctOrder).length = (fresh.filter (fun r => r.sector == x)).length :=
        List.length_insertionSort _ _
      rw [← hlen, ← List.take_take, List.take_length]
    · rw [sector_take_nonpos fresh mps x h]
      rw [List.flatten_cons, ih]
      have h0 : mps = 0 ∨ (fresh.filter (fun r => r.sector == x)).length = 0 := by
        omega
      have he : ((fresh.filter (fun r => r.sector == x)).insertionSort
          scorePctOrder).take mps = [] := by
        rcases h0 with h0 | h0
        · rw [h0, List.take_zero]
        · rw [List.length_eq_zero.mp h0]
          show (List.take mps ([] : List URow)) = []
          rw [List.take_nil]
      rw [he, List.nil_append]

theorem pick_next_batch_eq_spec (uni : List URow) (already : List String)
    (batch_size min_per_sector : ℕ) :
    pick_next_batch uni already batch_size min_per_sector =
      select_batch_spec uni already batch_size min_per_sector := by
  simp only [pick_next_batch, select_batch_spec, sector_phase, global_fill]
  rw [flatten_filterMap_take]
  set fresh := uni.filter (fun r => !already.contains r.ticker) with hfresh
  set selected := ((sectorKeys fresh).map (fun sct =>
    ((fresh.filter (fun r => r.sector == sct)).insertionSort scorePctOrder).take
      min_per_sector)).flatten with hsel
  by_cases h : selected.length < batch_size
  · rw [if_pos h, if_pos (by omega : 0 < batch_size - selected.length)]
  · rw [if_neg h]
    have h0 : batch_size - selected.length = 0 := by omega
    rw [h0, List.take_zero, List.append_nil]

theorem mem_fresh_of_mem_batch (uni : List URow) (already : List String)
    (batch_size min_per_sector : ℕ) (r : URow)
    (hr : r ∈ pick_next_batch uni already batch_size min_per_sector) :
    r ∈ uni.filter (fun s => !already.contains s.ticker) := by
  rw [pick_next_batch_eq_spec] at hr
  unfold select_batch_spec at hr
  rcases List.mem_append.mp hr with h | h
  · unfold sector_phase at h
    rcases List.mem_flatten.mp h with ⟨l, hl, hrl⟩
    rcases List.mem_map.mp hl with ⟨sct, -, rfl⟩
    have h1 := List.mem_of_mem_take hrl
    have h2 := (List.mem_insertionSort scorePctOrder).mp h1
    exact List.mem_of_mem_filter h2
  · unfold global_fill at h
    have h1 := List.mem_of_mem_take h
    have h2 := (List.mem_insertionSort scoreOrder).mp h1
    exact List.mem_of_mem_filter h2

/-- Claim C3: `pick_next_batch` never returns a ticker already scanned
today, and the batch it builds is exactly the spec's two-phase selection:
up to `min_per_sector` top-scored tickers from every sector first, then
the remaining capacity up to `batch_size` filled by global score rank
regardless of sector. -/
theorem pick_next_batch_spec (uni : List URow) (already : List String)
    (batch_size min_per_sector : ℕ) :
    pick_next_batch uni already batch_size min_per_sector =
      select_batch_spec uni already batch_size min_per_sector ∧
    ∀ r ∈ pick_next_batch uni already batch_size min_per_sector,
      r.ticker ∉ already := by
  refine ⟨pick_next_batch_eq_spec uni already batch_size min_per_sector, ?_⟩
  intro r hr
  have h := mem_fresh_of_mem_batch uni already batch_size min_per_sector r hr
  have h2 := List.of_mem_filter h
  simp only [Bool.not_eq_true'] at h2
  simpa using h2

/-- Witness for C3: with universe {A (scanned), B} and `already = [A]`,
the returned batch contains B and B is not in `already`. -/
theorem pick_next_batch_spec_witness :
    (⟨"B", "Tech", 1, 1⟩ : URow).ticker ∉ ["A"] :=
  (pick_next_batch_spec [⟨"A", "Tech", 2, 1⟩, ⟨"B", "Tech", 1, 1⟩] ["A"] 5 1).2
    ⟨"B", "Tech", 1, 1⟩ (by decide)

/-! ### Combined tag de-duplication (`scan.py` line 156)

`run_scan` stores `all_tags = list(set(strategy_tags + candle_tags))`.
A CPython `set` of strings iterates in hash-table order — string hashes
are randomized per process (`PYTHONHASHSEED`) — so the enumeration order
is not a function of the input list.  We model `list(set(xs))` as an
arbitrary admissible enumeration (a choice of positions) of the distinct
elements of `xs`; any permutation can occur.
-/

/-- `list(set(xs))` under one admissible set-iteration order: `order`
lists positions into the distinct elements of `xs`. -/
def list_set_enum (order : List ℕ) (xs : List String) : List String :=
  order.filterMap (fun i => (dedupFirstSeen xs)[i]?)

/-- Claim C5 fails on the code (code bug): the combined `all_tags` is
built with `list(set(...))`, whose iteration order is hash-dependent, not
first-seen.  Under the (admissible) enumeration that visits the two
distinct tags in the opposite order, the stored list is the reversal of
the first-seen order, so the output is not "the input sequence with later
duplicates removed".  (`detect_strategies`' own internal de-dup,
`list(dict.fromkeys(tags))` = `dedupFirstSeen`, does preserve order.) -/
theorem all_tags_order_not_guaranteed :
    list_set_enum [1, 0] ["BB Upper Touch", "Bullish Engulfing"] =
      ["Bullish Engulfing", "BB Upper Touch"] ∧
    list_set_enum [1, 0] ["BB Upper Touch", "Bullish Engulfing"] ≠
      dedupFirstSeen ["BB Upper Touch", "Bullish Engulfing"] :=
  ⟨rfl, by decide⟩

end StockDash
